import Mathlib

/-!
Verification of `filterRecords.py`, a record-filtering utility: it reads a
CSV record file into an in-memory map keyed by a configured id column,
then walks an id filter file line by line, emitting the matching records
(optionally projected through a column layout) in filter-file order.

The embedding translates the script's functions directly:
* `pyGet` is Python list indexing `xs[i]` (negative indices count from the
  end, out-of-range raises `IndexError`);
* `pyInt` is Python `int(str)` on decimal literals (optional surrounding
  whitespace and sign, digits only otherwise `ValueError`);
* `buildRecMap` is the record-reading loop (lines 139-146 of the script);
* `parseLayoutOpt` is the layout-string handling (lines 158-165);
* `runFilter` is the filter-file loop (lines 167-191), returning the
  written rows and the warned-about unknown identifiers;
* `run` chains the three in the script's order;
* `runEvents` additionally records the file-handle open/close events of
  `run` so resource-handling behaviour can be stated;
* `parseArgs`/`processCommandLine` embed `process_command_line`
  (optparse option handling followed by the positional-count and
  filter-file checks).

Record files are modelled after `csv.reader`: a list of rows, each row a
list of string fields (an empty CSV line parses to the empty row).  The
filter file is a list of raw text lines as produced by Python file
iteration, each still carrying its line terminator.
-/

namespace FilterRecords

/-- The two runtime exceptions the script can raise while processing:
`IndexError` from list indexing and `ValueError` from `int()`. -/
inductive PyErr where
  | indexError
  | valueError
deriving DecidableEq, Repr

/-- One parsed CSV row: an ordered list of string fields. -/
abbrev Row := List String

/-- The Record Map, a Python dict from identifier to row.  Modelled as an
insertion-ordered association list with unique keys, exactly dict
semantics: overwrite in place, append fresh keys at the end. -/
abbrev RecMap := List (String × Row)

/-- Python list indexing `xs[i]`: non-negative indices from the front,
negative indices from the end, `IndexError` otherwise. -/
def pyGet (xs : Row) (i : Int) : Except PyErr String :=
  if 0 ≤ i ∧ i < (xs.length : Int) then .ok (xs.getD i.toNat "")
  else if -(xs.length : Int) ≤ i ∧ i < 0 then .ok (xs.getD (i + xs.length).toNat "")
  else .error .indexError

/-- Python dict lookup `m[k]` / `k in m`. -/
def dlookup : RecMap → String → Option Row
  | [], _ => none
  | (k', v) :: rest, k => if k' = k then some v else dlookup rest k

/-- Python dict assignment `m[k] = v`: replace in place, else append. -/
def dinsert : RecMap → String → Row → RecMap
  | [], k, v => [(k, v)]
  | (k', v') :: rest, k, v =>
      if k' = k then (k, v) :: rest else (k', v') :: dinsert rest k v

/-- The record-reading loop (script lines 139-146): each non-empty row is
stored under its id-column field, empty rows are skipped.  `acc` is the
dict built so far. -/
def buildRecMapAux (idCol : Int) (acc : RecMap) : List Row → Except PyErr RecMap
  | [] => .ok acc
  | rec :: rest =>
      if rec.isEmpty then buildRecMapAux idCol acc rest
      else
        match pyGet rec idCol with
        | .ok idv => buildRecMapAux idCol (dinsert acc idv rec) rest
        | .error e => .error e

/-- The Record Map built from the record file's parsed rows. -/
def buildRecMap (idCol : Int) (rows : List Row) : Except PyErr RecMap :=
  buildRecMapAux idCol [] rows

/-- Python whitespace as stripped by `int()`. -/
def pySpace (c : Char) : Bool :=
  c == ' ' || c == '\t' || c == '\n' || c == '\r' || c == '\x0b' || c == '\x0c'

/-- Decimal value of a digit string. -/
def digitsVal (ds : List Char) : Int :=
  ds.foldl (fun n c => 10 * n + ((c.toNat : Int) - 48)) 0

/-- `int()` on a sign-free character sequence: all decimal digits and
non-empty, else `ValueError`. -/
def pyIntCore (ds : List Char) : Except PyErr Int :=
  if ds ≠ [] ∧ ds.all Char.isDigit then .ok (digitsVal ds) else .error .valueError

/-- Python `int(s)` for decimal literals: strip surrounding whitespace,
allow one leading sign, then digits; anything else raises `ValueError`. -/
def pyInt (s : String) : Except PyErr Int :=
  match ((s.data.dropWhile pySpace).reverse.dropWhile pySpace).reverse with
  | '-' :: ds => (pyIntCore ds).map (fun n => -n)
  | '+' :: ds => pyIntCore ds
  | ds => pyIntCore ds

/-- `s.split(',')` on the character list: splitting on every comma, never
dropping empty pieces (`"".split(',') == [""]`). -/
def splitCommaAux (acc : List Char) : List Char → List String
  | [] => [String.mk acc.reverse]
  | c :: cs =>
      if c = ',' then String.mk acc.reverse :: splitCommaAux [] cs
      else splitCommaAux (c :: acc) cs

/-- Python `s.split(',')`. -/
def pySplitComma (s : String) : List String := splitCommaAux [] s.data

/-- Script line 163-164: `map(int, out_layout.split(','))` (Python 2 `map`
is eager, so a bad element raises `ValueError` right here). -/
def parseLayout (s : String) : Except PyErr (List Int) :=
  (pySplitComma s).mapM pyInt

/-- Script lines 158-165: the layout option is only parsed when the option
string is truthy (present and non-empty). -/
def parseLayoutOpt : Option String → Except PyErr (Option (List Int))
  | none => .ok none
  | some s => if s = "" then .ok none else (parseLayout s).map some

/-- `id.splitlines()[0]` (script line 169): the text of the line before its
first line terminator.  (Iterating a Python file never yields the empty
string, where `splitlines()[0]` itself would raise, so the total function
is faithful on all reachable inputs.) -/
def stripNl (s : String) : String :=
  String.mk (s.data.takeWhile (fun c => !(c == '\n' || c == '\r')))

/-- Script lines 181-186: keep the layout indices below the record's
length, then index the record with each survivor. -/
def projectRow (layout : List Int) (rec : Row) : Except PyErr Row :=
  (layout.filter (fun c => decide (c < (rec.length : Int)))).mapM (pyGet rec)

/-- Script lines 177-186: the row written for a matched record — the record
itself unless a (truthy, i.e. non-empty) layout list is present. -/
def emitRow (lay : Option (List Int)) (rec : Row) : Except PyErr Row :=
  match lay with
  | none => .ok rec
  | some l => if l.isEmpty then .ok rec else projectRow l rec

/-- The filter-file loop (script lines 167-191): for each raw line, strip
the terminator, look the identifier up; on a hit write the (possibly
projected) row, on a miss log a warning naming the identifier.  Returns
the rows written and the warned identifiers, each in order. -/
def runFilter (m : RecMap) (lay : Option (List Int)) :
    List String → Except PyErr (List Row × List String)
  | [] => .ok ([], [])
  | line :: rest =>
      match dlookup m (stripNl line) with
      | some rec =>
          (emitRow lay rec).bind fun row =>
            (runFilter m lay rest).bind fun p => .ok (row :: p.1, p.2)
      | none =>
          (runFilter m lay rest).bind fun p => .ok (p.1, stripNl line :: p.2)

/-- `run` (script lines 120-196) as a function of the parsed record rows
and the raw filter-file lines: build the map, then (with the filter file
open) parse the layout, then drive the filter loop. -/
def run (idCol : Int) (layoutStr : Option String) (recRows : List Row)
    (filterLines : List String) : Except PyErr (List Row × List String) :=
  (buildRecMap idCol recRows).bind fun m =>
    (parseLayoutOpt layoutStr).bind fun lay =>
      runFilter m lay filterLines

/-- The process exit status: `main` returns 0 on a completed run; an
uncaught exception terminates the interpreter with status 1. -/
def exitStatus (idCol : Int) (layoutStr : Option String) (recRows : List Row)
    (filterLines : List String) : Nat :=
  match run idCol layoutStr recRows filterLines with
  | .ok _ => 0
  | .error _ => 1

/-- The identifier a record carries at a (valid, non-negative) id column;
used to state theorems about record files with well-formed rows. -/
def idOf (ic : Int) (r : Row) : String := r.getD ic.toNat ""

/-- The file-handle events of `run`, in order: the record file is opened
and closed by a `with` block (lines 134-146), the output file — when one
is configured — by a bare `open` (line 154) paired with a `close` that
only runs on normal completion (lines 193-194), and the filter file by a
`with` block (line 156). -/
inductive Ev where
  | openRec
  | closeRec
  | openOut
  | openFilter
  | closeFilter
  | closeOut
deriving DecidableEq, Repr

/-- `run` with its file-handle events.  A `with` block closes its file
even when an exception escapes it; the output file's `close` is plain
straight-line code after the filter loop, so an exception that aborts the
loop (or the layout parse, which happens inside the filter `with`) skips
it.  When the destination is standard output (`outFile = false`) no
output handle is ever opened or closed. -/
def runEvents (idCol : Int) (layoutStr : Option String) (outFile : Bool)
    (recRows : List Row) (filterLines : List String) :
    List Ev × Except PyErr Unit :=
  match buildRecMap idCol recRows with
  | .error e => ([Ev.openRec, Ev.closeRec], .error e)
  | .ok m =>
      let pre := [Ev.openRec, Ev.closeRec] ++ (if outFile then [Ev.openOut] else [])
        ++ [Ev.openFilter]
      match parseLayoutOpt layoutStr with
      | .error e => (pre ++ [Ev.closeFilter], .error e)
      | .ok lay =>
          match runFilter m lay filterLines with
          | .error e => (pre ++ [Ev.closeFilter], .error e)
          | .ok _ =>
              (pre ++ [Ev.closeFilter] ++ (if outFile then [Ev.closeOut] else []),
                .ok ())

/-- The usage errors `process_command_line` can raise through
`parser.error` / optparse's own validation, each carrying the data its
message interpolates:
* `noneSpecified` — "program takes exactly one record file; none specified."
* `extraIgnored xs` — "program takes exactly one record file; \x7bxs\x7d ignored."
* `filterMissing` — "ID filter file name not specified!"
* `badInt v` — optparse's invalid-integer-value error for `-i`/`--id-column`
* `missingArg opt` — optparse's option-requires-an-argument error
* `unknownOption opt` — optparse's no-such-option error -/
inductive UsageError where
  | noneSpecified
  | extraIgnored (extras : List String)
  | filterMissing
  | badInt (val : String)
  | missingArg (opt : String)
  | unknownOption (opt : String)
deriving DecidableEq, Repr

/-- The optparse settings object, fields named after the option variables
of the script, with optparse's defaults (`id_column` defaults to 0). -/
structure Settings where
  filt_file_name : Option String
  id_column : Int
  layout : Option String
  out_file_name : Option String
deriving DecidableEq, Repr

/-- The outcome of argument processing: a settings/positionals pair, a
help exit (status 0), or a usage error (non-zero exit). -/
inductive PhaseOut where
  | parsed (s : Settings) (args : List String)
  | help
  | err (e : UsageError)
deriving DecidableEq, Repr

/-- The four value-taking options of the parser. -/
inductive OptField where
  | filt
  | idc
  | lay
  | out
deriving DecidableEq, Repr

/-- Classification of one command-line token. -/
inductive TokKind where
  | dashdash
  | help
  | bad
  | positional
  | opt (f : OptField) (inline : Option String)
deriving DecidableEq, Repr

/-- The long option names the parser defines. -/
def longField : String → Option OptField
  | "filter" => some .filt
  | "id-column" => some .idc
  | "layout" => some .lay
  | "output" => some .out
  | _ => none

/-- The short option letters the parser defines. -/
def shortField : Char → Option OptField
  | 'f' => some .filt
  | 'i' => some .idc
  | 'l' => some .lay
  | 'o' => some .out
  | _ => none

/-- Classify a token the way optparse consumes it: `--` ends option
processing, `--name` or `--name=value` is a long option, `-x` or
`-xvalue` a short option, a lone `-` or anything else a positional.
(optparse's abbreviation of unambiguous long-option stems is not
modelled; no claim involves it.) -/
def classify (tok : String) : TokKind :=
  match tok.data with
  | ['-', '-'] => .dashdash
  | '-' :: '-' :: body =>
      let name := String.mk (body.takeWhile (fun c => !(c == '=')))
      let inline :=
        if body.any (fun c => c == '=') then
          some (String.mk ((body.dropWhile (fun c => !(c == '='))).drop 1))
        else none
      if name = "help" then .help
      else
        match longField name with
        | some f => .opt f inline
        | none => .bad
  | ['-'] => .positional
  | '-' :: c :: rest =>
      if c = 'h' then .help
      else
        match shortField c with
        | some f => .opt f (if rest.isEmpty then none else some (String.mk rest))
        | none => .bad
  | _ => .positional

/-- Store one option value into the settings; `-i`/`--id-column` is typed
`int`, so a non-integer value is a usage error right here. -/
def applyOpt (s : Settings) (f : OptField) (v : String) : Except UsageError Settings :=
  match f with
  | .filt => .ok { s with filt_file_name := some v }
  | .lay => .ok { s with layout := some v }
  | .out => .ok { s with out_file_name := some v }
  | .idc =>
      match pyInt v with
      | .ok n => .ok { s with id_column := n }
      | .error _ => .error (.badInt v)

/-- The optparse argument walk: options may be interspersed with
positionals; a value-taking option uses its attached value or consumes
the next token.  `pos` accumulates positionals in reverse. -/
def parseArgsAux : Settings → List String → List String → PhaseOut
  | s, pos, [] => .parsed s pos.reverse
  | s, pos, tok :: rest =>
      match classify tok with
      | .dashdash => .parsed s (pos.reverse ++ rest)
      | .help => .help
      | .bad => .err (.unknownOption tok)
      | .positional => parseArgsAux s (tok :: pos) rest
      | .opt f (some v) =>
          match applyOpt s f v with
          | .ok s' => parseArgsAux s' pos rest
          | .error e => .err e
      | .opt f none =>
          match rest with
          | [] => .err (.missingArg tok)
          | v :: rest' =>
              match applyOpt s f v with
              | .ok s' => parseArgsAux s' pos rest'
              | .error e => .err e

/-- `parser.parse_args(argv)` with the script's option set and defaults. -/
def parseArgs (argv : List String) : PhaseOut :=
  parseArgsAux ⟨none, 0, none, none⟩ [] argv

/-- `process_command_line` (script lines 63-111): parse the options, then
require exactly one positional argument (zero → "none specified", more →
the extras are named as ignored), then require a truthy filter file
name. -/
def processCommandLine (argv : List String) : PhaseOut :=
  match parseArgs argv with
  | .help => .help
  | .err e => .err e
  | .parsed s args =>
      if args.length = 1 then
        match s.filt_file_name with
        | none => .err .filterMissing
        | some "" => .err .filterMissing
        | some _ => .parsed s args
      else if args.length = 0 then .err .noneSpecified
      else .err (.extraIgnored (args.drop 1))

/-! ### Shared lemmas -/

/-- In-range non-negative indexing succeeds with the indexed field. -/
theorem pyGet_ok_of_lt (rec : Row) (i : Int) (h0 : 0 ≤ i) (hlt : i < (rec.length : Int)) :
    pyGet rec i = .ok (rec.getD i.toNat "") := by
  unfold pyGet
  rw [if_pos ⟨h0, hlt⟩]

/-- Negative indexing within range selects from the end. -/
theorem pyGet_neg (rec : Row) (k : Nat) (h1 : 1 ≤ k) (h2 : k ≤ rec.length) :
    pyGet rec (-(k : Int)) = .ok (rec.getD (rec.length - k) "") := by
  unfold pyGet
  rw [if_neg, if_pos]
  · have : ((-(k : Int)) + rec.length).toNat = rec.length - k := by omega
    rw [this]
  · constructor <;> omega
  · omega

/-- The only error `pyGet` raises is `IndexError`. -/
theorem pyGet_error_eq (xs : Row) (i : Int) (e : PyErr) (h : pyGet xs i = .error e) :
    e = .indexError := by
  unfold pyGet at h
  split at h
  · simp at h
  · split at h
    · simp at h
    · simpa using h.symm

/-- For a layout of non-negative indices, the projection is the map of the
record over the layout entries below the record's length. -/
theorem projectRow_nonneg (layout : List Int) (rec : Row)
    (hpos : ∀ c ∈ layout, 0 ≤ c) :
    projectRow layout rec =
      .ok (((layout.map Int.toNat).filter (fun k => decide (k < rec.length))).map
        (fun k => rec.getD k "")) := by
  induction layout with
  | nil => rfl
  | cons c cs ih =>
      have hc : 0 ≤ c := hpos c (List.mem_cons_self c cs)
      have ihh := ih (fun x hx => hpos x (List.mem_cons_of_mem c hx))
      by_cases h : c < (rec.length : Int)
      · have hn : c.toNat < rec.length := by omega
        simp only [projectRow, List.filter_cons, List.map_cons, h, decide_eq_true,
          decide_eq_true_eq, hn, if_pos]
        rw [List.mapM_cons]
        simp only [projectRow] at ihh
        rw [pyGet_ok_of_lt rec c hc h, ihh]
        rfl
      · have hn : ¬ (c.toNat < rec.length) := by omega
        have hd1 : (decide (c < (rec.length : Int))) = false := by simp [h]
        have hd2 : (decide (c.toNat < rec.length)) = false := by simp [hn]
        simp only [projectRow, List.filter_cons, List.map_cons, hd1, hd2,
          Bool.false_eq_true, if_false]
        simp only [projectRow] at ihh
        rw [ihh]

/-- A record loop that meets a non-empty row too short for a non-negative
id column stops with an `IndexError`, whatever map was built so far. -/
theorem buildRecMapAux_error_of_short (ic : Int) (hic : 0 ≤ ic) :
    ∀ (rows : List Row) (acc : RecMap),
      (∃ r ∈ rows, r ≠ [] ∧ r.length ≤ ic.toNat) →
      buildRecMapAux ic acc rows = .error .indexError := by
  intro rows
  induction rows with
  | nil =>
      intro acc h
      rcases h with ⟨r, hr, _⟩
      cases hr
  | cons r rs ih =>
      intro acc h
      by_cases hre : r.isEmpty
      · have hr0 : r = [] := by cases r <;> simp_all [List.isEmpty]
        have htail : ∃ r' ∈ rs, r' ≠ [] ∧ r'.length ≤ ic.toNat := by
          rcases h with ⟨r', hr', hne', hlen'⟩
          rcases List.mem_cons.mp hr' with h1 | h1
          · exact absurd (h1.trans hr0) hne'
          · exact ⟨r', h1, hne', hlen'⟩
        unfold buildRecMapAux
        rw [if_pos hre]
        exact ih acc htail
      · unfold buildRecMapAux
        rw [if_neg hre]
        by_cases hlen : r.length ≤ ic.toNat
        · have herr : pyGet r ic = .error .indexError := by
            unfold pyGet
            rw [if_neg, if_neg] <;> omega
          rw [herr]
        · have hok : pyGet r ic = .ok (r.getD ic.toNat "") :=
            pyGet_ok_of_lt r ic hic (by omega)
          rw [hok]
          apply ih
          rcases h with ⟨r', hr', hne', hlen'⟩
          rcases List.mem_cons.mp hr' with h1 | h1
          · subst h1; omega
          · exact ⟨r', h1, hne', hlen'⟩

/-- The rows a successful filter loop writes are exactly the in-order
filter-file lines resolved through the map (misses contributing nothing). -/
theorem runFilter_ok_rows (m : RecMap) (lay : Option (List Int)) :
    ∀ (lines : List String) (rows : List Row) (warns : List String),
      runFilter m lay lines = .ok (rows, warns) →
      rows = lines.filterMap
        (fun line => (dlookup m (stripNl line)).bind fun rec => (emitRow lay rec).toOption) := by
  intro lines
  induction lines with
  | nil =>
      intro rows warns h
      unfold runFilter at h
      simp only [Except.ok.injEq, Prod.mk.injEq] at h
      rw [← h.1]
      rfl
  | cons line rest ih =>
      intro rows warns h
      unfold runFilter at h
      cases hd : dlookup m (stripNl line) with
      | some rec =>
          rw [hd] at h
          simp only [] at h
          cases he : emitRow lay rec with
          | error e => rw [he] at h; simp [Except.bind] at h
          | ok row =>
              rw [he] at h
              cases hr : runFilter m lay rest with
              | error e => rw [hr] at h; simp [Except.bind] at h
              | ok p =>
                  rw [hr] at h
                  simp only [Except.bind, Except.ok.injEq, Prod.mk.injEq] at h
                  have hf : ((fun line => (dlookup m (stripNl line)).bind
                      fun rec => (emitRow lay rec).toOption) line) = some row := by
                    simp [hd, he, Except.toOption]
                  simp only [List.filterMap_cons, hf]
                  rw [← h.1]
                  exact congrArg (row :: ·) (ih p.1 p.2 (by rw [hr]))
      | none =>
          rw [hd] at h
          simp only [] at h
          cases hr : runFilter m lay rest with
          | error e => rw [hr] at h; simp [Except.bind] at h
          | ok p =>
              rw [hr] at h
              simp only [Except.bind, Except.ok.injEq, Prod.mk.injEq] at h
              have hf : ((fun line => (dlookup m (stripNl line)).bind
                  fun rec => (emitRow lay rec).toOption) line) = none := by
                simp [hd]
              simp only [List.filterMap_cons, hf]
              rw [← h.1]
              exact ih p.1 p.2 (by rw [hr])

/-- Unfolding equation of `runFilter` for a line that misses the map. -/
theorem runFilter_cons_none (m : RecMap) (lay : Option (List Int)) (line : String)
    (rest : List String) (hmiss : dlookup m (stripNl line) = none) :
    runFilter m lay (line :: rest) =
      (runFilter m lay rest).bind fun p => .ok (p.1, stripNl line :: p.2) := by
  conv_lhs => unfold runFilter
  rw [hmiss]

/-- Unfolding equation of `runFilter` for a line that hits the map. -/
theorem runFilter_cons_some (m : RecMap) (lay : Option (List Int)) (line : String)
    (rest : List String) (rec : Row) (hd : dlookup m (stripNl line) = some rec) :
    runFilter m lay (line :: rest) =
      (emitRow lay rec).bind fun row =>
        (runFilter m lay rest).bind fun p => .ok (row :: p.1, p.2) := by
  conv_lhs => unfold runFilter
  rw [hd]

/-- A filter loop in which every identifier misses the map writes no rows
and warns about each identifier, in order. -/
theorem runFilter_all_miss (m : RecMap) (lay : Option (List Int)) :
    ∀ (lines : List String), (∀ l ∈ lines, dlookup m (stripNl l) = none) →
      runFilter m lay lines = .ok ([], lines.map stripNl) := by
  intro lines
  induction lines with
  | nil => intro _; rfl
  | cons line rest ih =>
      intro hall
      unfold runFilter
      rw [hall line (List.mem_cons_self line rest)]
      simp only []
      rw [ih (fun l hl => hall l (List.mem_cons_of_mem line hl))]
      rfl

/-- Looking up the key just inserted yields the inserted row. -/
theorem dlookup_dinsert_self (m : RecMap) (k : String) (v : Row) :
    dlookup (dinsert m k v) k = some v := by
  induction m with
  | nil => simp [dinsert, dlookup]
  | cons p rest ih =>
      by_cases h : p.1 = k
      · simp [dinsert, dlookup, h]
      · simp [dinsert, dlookup, h, ih]

/-- Inserting under a different key leaves a lookup unchanged. -/
theorem dlookup_dinsert_ne (m : RecMap) (k k' : String) (v : Row) (h : k' ≠ k) :
    dlookup (dinsert m k' v) k = dlookup m k := by
  induction m with
  | nil => simp [dinsert, dlookup, h]
  | cons p rest ih =>
      by_cases hp : p.1 = k'
      · simp [dinsert, dlookup, hp, h]
      · simp only [dinsert, hp, if_false]
        by_cases hk : p.1 = k
        · simp [dlookup, hk]
        · simp [dlookup, hk, ih]

/-- The record loop processes a concatenation left part first. -/
theorem buildRecMapAux_append (ic : Int) :
    ∀ (xs ys : List Row) (acc : RecMap),
      buildRecMapAux ic acc (xs ++ ys) =
        (buildRecMapAux ic acc xs).bind fun m => buildRecMapAux ic m ys := by
  intro xs
  induction xs with
  | nil => intro ys acc; rfl
  | cons x xs ih =>
      intro ys acc
      by_cases hx : x.isEmpty
      · simp only [List.cons_append, buildRecMapAux, hx, if_pos]
        exact ih ys acc
      · simp only [List.cons_append, buildRecMapAux, hx, Bool.false_eq_true, if_false]
        cases pyGet x ic with
        | ok idv => exact ih ys (dinsert acc idv x)
        | error e => rfl

/-- Rows none of which carry the identifier `idv` leave the map entry for
`idv` untouched. -/
theorem buildRecMapAux_preserve (ic : Int) (idv : String) :
    ∀ (rows : List Row) (acc : RecMap) (m : RecMap),
      buildRecMapAux ic acc rows = .ok m →
      (∀ r ∈ rows, r ≠ [] → pyGet r ic ≠ .ok idv) →
      dlookup m idv = dlookup acc idv := by
  intro rows
  induction rows with
  | nil =>
      intro acc m h _
      simp only [buildRecMapAux, Except.ok.injEq] at h
      rw [h]
  | cons r rs ih =>
      intro acc m h hpost
      by_cases hre : r.isEmpty
      · unfold buildRecMapAux at h
        rw [if_pos hre] at h
        exact ih acc m h (fun x hx => hpost x (List.mem_cons_of_mem r hx))
      · have hne : r ≠ [] := by cases r <;> simp_all [List.isEmpty]
        unfold buildRecMapAux at h
        rw [if_neg hre] at h
        cases hg : pyGet r ic with
        | error e => rw [hg] at h; simp at h
        | ok idr =>
            rw [hg] at h
            simp only [] at h
            have hr : dlookup m idv = dlookup (dinsert acc idr r) idv :=
              ih (dinsert acc idr r) m h (fun x hx => hpost x (List.mem_cons_of_mem r hx))
            have hneq : idr ≠ idv := by
              intro he
              exact hpost r (List.mem_cons_self r rs) hne (by rw [hg, he])
            rw [hr, dlookup_dinsert_ne acc idv idr r hneq]

/-- Inserting a key absent from the map appends the binding at the end. -/
theorem dinsert_append_fresh (k : String) (v : Row) :
    ∀ (m : RecMap), dlookup m k = none → dinsert m k v = m ++ [(k, v)] := by
  intro m
  induction m with
  | nil => intro _; rfl
  | cons p rest ih =>
      obtain ⟨k', v'⟩ := p
      intro h
      by_cases hp : k' = k
      · simp [dlookup, hp] at h
      · simp only [dlookup, hp, if_false] at h
        simp [dinsert, hp, ih h]

/-- A lookup that misses the front part of an appended map falls through. -/
theorem dlookup_append_none (k : String) :
    ∀ (a b : RecMap), dlookup a k = none → dlookup (a ++ b) k = dlookup b k := by
  intro a
  induction a with
  | nil => intro b _; rfl
  | cons p rest ih =>
      obtain ⟨k', v'⟩ := p
      intro b h
      by_cases hp : k' = k
      · simp [dlookup, hp] at h
      · simp only [dlookup, hp, if_false] at h
        simp only [List.cons_append, dlookup, hp, if_false]
        exact ih b h

/-- Loading well-formed rows with pairwise-distinct identifiers, all fresh
for the accumulator, appends one binding per row in file order. -/
theorem buildRecMapAux_fresh (ic : Int) (hic : 0 ≤ ic) :
    ∀ (rows : List Row) (acc : RecMap),
      (∀ r ∈ rows, r ≠ [] ∧ ic.toNat < r.length) →
      ((rows.map (idOf ic)).Nodup) →
      (∀ r ∈ rows, dlookup acc (idOf ic r) = none) →
      buildRecMapAux ic acc rows = .ok (acc ++ rows.map (fun r => (idOf ic r, r))) := by
  intro rows
  induction rows with
  | nil => intro acc _ _ _; simp [buildRecMapAux]
  | cons r rs ih =>
      intro acc hrows hnd hfresh
      have hr := hrows r (List.mem_cons_self r rs)
      have hre : r.isEmpty = false := by
        rcases hr with ⟨h1, _⟩; cases r <;> simp_all [List.isEmpty]
      unfold buildRecMapAux
      rw [hre]
      simp only [Bool.false_eq_true, if_false]
      have hg : pyGet r ic = .ok (idOf ic r) := by
        rw [pyGet_ok_of_lt r ic hic (by omega)]
        rfl
      rw [hg]
      simp only []
      rw [dinsert_append_fresh (idOf ic r) r acc (hfresh r (List.mem_cons_self r rs))]
      have hnd' : ((rs.map (idOf ic)).Nodup) := (List.nodup_cons.mp (by simpa using hnd)).2
      have hhead : idOf ic r ∉ rs.map (idOf ic) := (List.nodup_cons.mp (by simpa using hnd)).1
      have hfresh' : ∀ r' ∈ rs, dlookup (acc ++ [(idOf ic r, r)]) (idOf ic r') = none := by
        intro r' hr'
        rw [dlookup_append_none (idOf ic r') acc _ (hfresh r' (List.mem_cons_of_mem r hr'))]
        have hne : idOf ic r ≠ idOf ic r' := by
          intro he
          exact hhead (he ▸ List.mem_map_of_mem (idOf ic) hr')
        simp [dlookup, hne]
      rw [ih (acc ++ [(idOf ic r, r)])
        (fun x hx => hrows x (List.mem_cons_of_mem r hx)) hnd' hfresh']
      simp

/-- In the map built from rows with pairwise-distinct identifiers, each
row is found under its own identifier. -/
theorem dlookup_maplist (ic : Int) :
    ∀ (rows : List Row), ((rows.map (idOf ic)).Nodup) →
      ∀ r ∈ rows, dlookup (rows.map (fun r => (idOf ic r, r))) (idOf ic r) = some r := by
  intro rows
  induction rows with
  | nil => intro _ r hr; cases hr
  | cons x rs ih =>
      intro hnd r hr
      have hnd' : ((rs.map (idOf ic)).Nodup) := (List.nodup_cons.mp (by simpa using hnd)).2
      have hhead : idOf ic x ∉ rs.map (idOf ic) := (List.nodup_cons.mp (by simpa using hnd)).1
      rcases List.mem_cons.mp hr with h1 | h1
      · subst h1
        simp [dlookup]
      · have hne : idOf ic x ≠ idOf ic r := by
          intro he
          exact hhead (he ▸ List.mem_map_of_mem (idOf ic) h1)
        simp only [List.map_cons, dlookup, hne, if_false]
        exact ih hnd' r h1

/-- A filter loop whose every line hits the map with no layout echoes the
looked-up rows in order, with no warnings. -/
theorem runFilter_hits (m : RecMap) (f : Row → String) :
    ∀ (rows : List Row), (∀ r ∈ rows, dlookup m (stripNl (f r)) = some r) →
      runFilter m none (rows.map f) = .ok (rows, []) := by
  intro rows
  induction rows with
  | nil => intro _; rfl
  | cons r rs ih =>
      intro h
      rw [List.map_cons,
        runFilter_cons_some m none (f r) (rs.map f) r (h r (List.mem_cons_self r rs))]
      rw [ih (fun x hx => h x (List.mem_cons_of_mem r hx))]
      rfl

/-- With the default id column 0 the record loader never fails: every
non-empty row has a field 0 and empty rows are skipped. -/
theorem buildRecMapAux_zero_ok :
    ∀ (rows : List Row) (acc : RecMap), ∃ m, buildRecMapAux 0 acc rows = .ok m := by
  intro rows
  induction rows with
  | nil => intro acc; exact ⟨acc, rfl⟩
  | cons r rs ih =>
      intro acc
      by_cases hre : r.isEmpty
      · obtain ⟨m, hm⟩ := ih acc
        exact ⟨m, by unfold buildRecMapAux; rw [if_pos hre]; exact hm⟩
      · have hlen : (0 : Int) < r.length := by
          cases r
          · simp [List.isEmpty] at hre
          · simp
        have hg : pyGet r 0 = .ok (r.getD 0 "") := pyGet_ok_of_lt r 0 le_rfl hlen
        obtain ⟨m, hm⟩ := ih (dinsert acc (r.getD 0 "") r)
        refine ⟨m, ?_⟩
        unfold buildRecMapAux
        rw [if_neg hre, hg]
        exact hm

/-! ### Claims -/

/-- C10: a negative layout entry `-k` is never dropped by the
out-of-range check (which only removes indices at or above the record's
length), and for a record of length `n` with `1 ≤ k ≤ n` the projection
emits the field `record[n - k]`, counted from the end of the record. -/
theorem negative_layout_index_from_end (rec : Row) (k : Nat)
    (h1 : 1 ≤ k) (h2 : k ≤ rec.length) :
    (-(k : Int)) < (rec.length : Int) ∧
    pyGet rec (-(k : Int)) = .ok (rec.getD (rec.length - k) "") ∧
    projectRow [-(k : Int)] rec = .ok [rec.getD (rec.length - k) ""] := by
  have hlt : (-(k : Int)) < (rec.length : Int) := by omega
  have hget := pyGet_neg rec k h1 h2
  refine ⟨hlt, hget, ?_⟩
  simp [projectRow, List.filter, hlt, List.mapM, List.mapM.loop, hget]

/-- Witness for C10: layout entry `-1` on the record `["a","b","c"]`
emits the last field `"c"`. -/
theorem negative_layout_index_from_end_witness :
    projectRow [(-1 : Int)] ["a", "b", "c"] = .ok ["c"] := by
  have h := negative_layout_index_from_end ["a", "b", "c"] 1 (by decide) (by decide)
  exact h.2.2.trans (by rfl)

/-- C1: with a supplied layout (of non-negative column indices, per the
data model), the emitted row for a matched record is the record indexed at
exactly the layout entries below the record's length, in layout order:
out-of-range entries are dropped, never replaced by a placeholder, so the
emitted width can fall short of the layout's length and vary per record. -/
theorem layout_projection_drops_out_of_range (layout : List Int) (rec : Row)
    (hne : layout ≠ []) (hpos : ∀ c ∈ layout, 0 ≤ c) :
    emitRow (some layout) rec =
      .ok (((layout.map Int.toNat).filter (fun k => decide (k < rec.length))).map
        (fun k => rec.getD k "")) := by
  have hemp : layout.isEmpty = false := by cases layout <;> simp_all [List.isEmpty]
  simp only [emitRow, hemp, Bool.false_eq_true, if_false]
  exact projectRow_nonneg layout rec hpos

/-- Witness for C1: layout `[0, 2]` on the two-field record `["B","2"]`
emits just `["B"]` — index 2 is dropped, not padded. -/
theorem layout_projection_drops_out_of_range_witness :
    emitRow (some [0, 2]) ["B", "2"] = .ok ["B"] := by
  have h := layout_projection_drops_out_of_range [0, 2] ["B", "2"]
    (by decide) (by decide)
  exact h.trans (by rfl)

/-- C8: a record file containing a non-empty row with fewer than
`id_column + 1` fields (for a non-negative id column) makes the record
loader raise an `IndexError`, and the run aborts with exit status 1. -/
theorem short_record_aborts (ic : Int) (recRows : List Row)
    (layoutStr : Option String) (filterLines : List String)
    (hic : 0 ≤ ic) (hbad : ∃ r ∈ recRows, r ≠ [] ∧ r.length ≤ ic.toNat) :
    buildRecMap ic recRows = .error .indexError ∧
    exitStatus ic layoutStr recRows filterLines = 1 := by
  have h := buildRecMapAux_error_of_short ic hic recRows [] hbad
  refine ⟨h, ?_⟩
  simp only [exitStatus, run, buildRecMap] at *
  rw [h]
  rfl

/-- Witness for C8: id column 1 on the one-field record `["A"]` aborts. -/
theorem short_record_aborts_witness :
    buildRecMap 1 [["A"]] = .error .indexError ∧ exitStatus 1 none [["A"]] [] = 1 :=
  short_record_aborts 1 [["A"]] none [] (by decide) (by decide)

/-- C2: on a successful run the output rows are exactly the filter-file
lines resolved in their file order through the Record Map — the record
file's own row order enters only through the map, and nothing is sorted. -/
theorem output_follows_filter_order (idCol : Int) (layoutStr : Option String)
    (recRows : List Row) (filterLines : List String) (m : RecMap)
    (lay : Option (List Int)) (rows : List Row) (warns : List String)
    (hm : buildRecMap idCol recRows = .ok m)
    (hl : parseLayoutOpt layoutStr = .ok lay)
    (hrun : run idCol layoutStr recRows filterLines = .ok (rows, warns)) :
    rows = filterLines.filterMap
      (fun line => (dlookup m (stripNl line)).bind fun rec => (emitRow lay rec).toOption) := by
  unfold run at hrun
  rw [hm, hl] at hrun
  simp only [Except.bind] at hrun
  exact runFilter_ok_rows m lay filterLines rows warns hrun

/-- Witness for C2: record file `A,1 / B,2 / C,3` with filter file `B / A`
outputs `B,2` then `A,1` — filter-file order, not record-file order. -/
theorem output_follows_filter_order_witness :
    [["B", "2"], ["A", "1"]] = (["B\n", "A\n"]).filterMap
      (fun line =>
        (dlookup [("A", ["A", "1"]), ("B", ["B", "2"]), ("C", ["C", "3"])]
          (stripNl line)).bind fun rec => (emitRow none rec).toOption) :=
  output_follows_filter_order 0 none [["A", "1"], ["B", "2"], ["C", "3"]]
    ["B\n", "A\n"] [("A", ["A", "1"]), ("B", ["B", "2"]), ("C", ["C", "3"])]
    none [["B", "2"], ["A", "1"]] [] rfl rfl rfl

/-- C7: a filter-file line whose stripped identifier (possibly the empty
string from a blank line) is absent from the Record Map emits no row,
appends exactly one warning naming that identifier, and leaves the rest of
the loop unchanged; a run whose misses are all of this kind still
completes with no rows, one warning per line, and exit status 0. -/
theorem unknown_id_warn_continue (m : RecMap) (lay : Option (List Int))
    (line : String) (rest : List String) (idCol : Int) (layoutStr : Option String)
    (recRows : List Row) (lines : List String)
    (hmiss : dlookup m (stripNl line) = none)
    (hm : buildRecMap idCol recRows = .ok m)
    (hl : parseLayoutOpt layoutStr = .ok lay)
    (hall : ∀ l ∈ lines, dlookup m (stripNl l) = none) :
    runFilter m lay (line :: rest) =
      (runFilter m lay rest).map (fun p => (p.1, stripNl line :: p.2)) ∧
    run idCol layoutStr recRows lines = .ok ([], lines.map stripNl) ∧
    exitStatus idCol layoutStr recRows lines = 0 := by
  have hrun : run idCol layoutStr recRows lines = .ok ([], lines.map stripNl) := by
    unfold run
    rw [hm, hl]
    simp only [Except.bind]
    exact runFilter_all_miss m lay lines hall
  refine ⟨?_, hrun, ?_⟩
  · rw [runFilter_cons_none m lay line rest hmiss]
    cases hr : runFilter m lay rest <;> simp [Except.bind, Except.map, hr]
  · unfold exitStatus
    rw [hrun]

/-- Witness for C7: filter lines `Z` and a blank line against a map
holding only `A`: no rows, two warnings (`"Z"` and `""`), exit status 0. -/
theorem unknown_id_warn_continue_witness :
    runFilter [("A", ["A", "1"])] none ["Z\n", "\n"] =
      (runFilter [("A", ["A", "1"])] none ["\n"]).map
        (fun p => (p.1, stripNl "Z\n" :: p.2)) ∧
    run 0 none [["A", "1"]] ["Z\n", "\n"] = .ok ([], ["Z\n", "\n"].map stripNl) ∧
    exitStatus 0 none [["A", "1"]] ["Z\n", "\n"] = 0 :=
  unknown_id_warn_continue [("A", ["A", "1"])] none "Z\n" ["\n"] 0 none
    [["A", "1"]] ["Z\n", "\n"] rfl rfl rfl (by decide)

/-- C3: when a non-empty record row `rec` carrying identifier `idv` is
followed only by rows that do not carry `idv`, the built Record Map binds
`idv` to `rec` — later occurrences overwrote earlier ones without error —
and filtering by that identifier yields `rec`'s fields (or their layout
projection). -/
theorem duplicate_ids_last_wins (ic : Int) (pre post : List Row) (rec : Row)
    (idv : String) (m : RecMap) (lay : Option (List Int)) (line : String)
    (hrec : rec ≠ []) (hid : pyGet rec ic = .ok idv)
    (hpost : ∀ r ∈ post, r ≠ [] → pyGet r ic ≠ .ok idv)
    (hm : buildRecMap ic (pre ++ rec :: post) = .ok m)
    (hline : stripNl line = idv) :
    dlookup m idv = some rec ∧
    runFilter m lay [line] =
      (emitRow lay rec).map (fun row => ([row], ([] : List String))) := by
  rw [buildRecMap, buildRecMapAux_append ic pre (rec :: post) []] at hm
  cases h1 : buildRecMapAux ic [] pre with
  | error e => rw [h1] at hm; simp [Except.bind] at hm
  | ok m1 =>
      rw [h1] at hm
      simp only [Except.bind] at hm
      have hre : rec.isEmpty = false := by cases rec <;> simp_all [List.isEmpty]
      unfold buildRecMapAux at hm
      rw [hre] at hm
      simp only [Bool.false_eq_true, if_false] at hm
      rw [hid] at hm
      simp only [] at hm
      have hl : dlookup m idv = dlookup (dinsert m1 idv rec) idv :=
        buildRecMapAux_preserve ic idv post (dinsert m1 idv rec) m hm hpost
      have hlook : dlookup m idv = some rec := by
        rw [hl, dlookup_dinsert_self]
      refine ⟨hlook, ?_⟩
      rw [runFilter_cons_some m lay line [] rec (by rw [hline]; exact hlook)]
      cases he : emitRow lay rec <;> simp [Except.bind, Except.map, runFilter]

/-- Witness for C3: record file `A,1 / A,9` filtered by `A` finds the
later row `A,9`. -/
theorem duplicate_ids_last_wins_witness :
    dlookup [("A", ["A", "9"])] "A" = some ["A", "9"] ∧
    runFilter [("A", ["A", "9"])] none ["A"] =
      (emitRow none ["A", "9"]).map (fun row => ([row], ([] : List String))) :=
  duplicate_ids_last_wins 0 [["A", "1"]] [] ["A", "9"] "A" [("A", ["A", "9"])]
    none "A" (by decide) rfl (fun r hr => absurd hr (List.not_mem_nil r)) rfl rfl

/-- Counterexample to C6 as stated: the record file `(blank line) / A,1`
has no duplicate identifiers, and filtering it by its identifier list
`A` with no layout outputs only `A,1` — not the record file itself, whose
blank line (the empty row) was silently dropped. -/
theorem roundtrip_counterexample :
    run 0 none [[], ["A", "1"]] ["A"] = .ok ([["A", "1"]], []) ∧
    [["A", "1"]] ≠ [[], ["A", "1"]] := ⟨rfl, by decide⟩

/-- C6 amended: for a record file with no *empty* rows, every row long
enough for the (non-negative) id column, pairwise-distinct identifiers
containing no line terminators, a filter file listing exactly those
identifiers in record-file order, and no layout, the output is exactly
the record file's rows in order. -/
theorem roundtrip_no_empty_rows (ic : Int) (recRows : List Row)
    (hic : 0 ≤ ic)
    (hrows : ∀ r ∈ recRows, r ≠ [] ∧ ic.toNat < r.length)
    (hnd : ((recRows.map (idOf ic)).Nodup))
    (hstrip : ∀ r ∈ recRows, stripNl (idOf ic r) = idOf ic r) :
    run ic none recRows (recRows.map (idOf ic)) = .ok (recRows, []) := by
  have hb : buildRecMap ic recRows = .ok (recRows.map (fun r => (idOf ic r, r))) := by
    have h := buildRecMapAux_fresh ic hic recRows [] hrows hnd (fun r _ => rfl)
    simpa [buildRecMap] using h
  unfold run
  rw [hb]
  simp only [Except.bind, parseLayoutOpt]
  apply runFilter_hits
  intro r hr
  rw [hstrip r hr]
  exact dlookup_maplist ic recRows hnd r hr

/-- Witness for amended C6: the record file `A,1 / B,2` filtered by its
own identifier list round-trips. -/
theorem roundtrip_no_empty_rows_witness :
    run 0 none [["A", "1"], ["B", "2"]] ([["A", "1"], ["B", "2"]].map (idOf 0)) =
      .ok ([["A", "1"], ["B", "2"]], []) :=
  roundtrip_no_empty_rows 0 [["A", "1"], ["B", "2"]] (by decide) (by decide)
    (by decide) (by decide)

/-- Counterexample to C4 as stated: the invocation
`rec.csv -f filt -l 0,x` carries the non-integer layout element `x`, yet
argument processing succeeds (no usage error, the layout kept verbatim as
a string), and the failure only happens inside `run` — a `ValueError`
raised after the record file has been opened, read and closed and the
filter file opened. -/
theorem nonint_layout_not_usage_error :
    processCommandLine ["rec.csv", "-f", "filt", "-l", "0,x"] =
      .parsed ⟨some "filt", 0, some "0,x", none⟩ ["rec.csv"] ∧
    (runEvents 0 (some "0,x") false [["A", "1"]] ["A"]).2 = .error .valueError ∧
    Ev.openRec ∈ (runEvents 0 (some "0,x") false [["A", "1"]] ["A"]).1 ∧
    Ev.openFilter ∈ (runEvents 0 (some "0,x") false [["A", "1"]] ["A"]).1 :=
  ⟨rfl, rfl, by decide, by decide⟩

/-- C4 amended: a non-integer `--layout` element is not caught by the
argument parser; the invocation parses, the record file is opened and
read, the filter file is opened, and only then does the layout parse
raise a `ValueError`, terminating the run with a non-zero status. -/
theorem nonint_layout_fails_in_run (recRows : List Row) (filterLines : List String)
    (outFile : Bool) :
    processCommandLine ["rec.csv", "-f", "filt", "-l", "0,x"] =
      .parsed ⟨some "filt", 0, some "0,x", none⟩ ["rec.csv"] ∧
    (runEvents 0 (some "0,x") outFile recRows filterLines).2 = .error .valueError ∧
    Ev.openRec ∈ (runEvents 0 (some "0,x") outFile recRows filterLines).1 ∧
    Ev.openFilter ∈ (runEvents 0 (some "0,x") outFile recRows filterLines).1 ∧
    exitStatus 0 (some "0,x") recRows filterLines = 1 := by
  obtain ⟨m, hm⟩ := buildRecMapAux_zero_ok recRows []
  have hmm : buildRecMap 0 recRows = .ok m := hm
  have hpl : parseLayoutOpt (some "0,x") = .error .valueError := rfl
  refine ⟨rfl, ?_, ?_, ?_, ?_⟩
  · simp only [runEvents, hmm, hpl]
  · simp only [runEvents, hmm, hpl]
    cases outFile <;> decide
  · simp only [runEvents, hmm, hpl]
    cases outFile <;> decide
  · unfold exitStatus run
    rw [hmm]
    simp [Except.bind, hpl]

/-- Counterexample to C5 as stated: with an output file configured and a
row whose projection raises (`layout -5` against the two-field record
`A,1`), the run terminates early with an `IndexError` after opening the
output file, and no close of the output handle ever happens — closure is
not guaranteed on this exit path. -/
theorem output_close_counterexample :
    (runEvents 0 (some "-5") true [["A", "1"]] ["A"]).2 = .error .indexError ∧
    Ev.openOut ∈ (runEvents 0 (some "-5") true [["A", "1"]] ["A"]).1 ∧
    Ev.closeOut ∉ (runEvents 0 (some "-5") true [["A", "1"]] ["A"]).1 :=
  ⟨rfl, by decide, by decide⟩

/-- C5 amended: the configured output file is closed on normal completion
of the run; when the destination is standard output no output handle is
ever closed (or opened) by the program; but on early termination from an
unhandled error the output handle is *not* closed — the close at the end
of `run` is plain straight-line code, not a scoped guarantee. -/
theorem output_close_behavior (idCol : Int) (layoutStr : Option String) (outFile : Bool)
    (recRows : List Row) (filterLines : List String) :
    ((runEvents idCol layoutStr outFile recRows filterLines).2 = .ok () →
      outFile = true →
      Ev.openOut ∈ (runEvents idCol layoutStr outFile recRows filterLines).1 ∧
      Ev.closeOut ∈ (runEvents idCol layoutStr outFile recRows filterLines).1) ∧
    (outFile = false →
      Ev.closeOut ∉ (runEvents idCol layoutStr outFile recRows filterLines).1) ∧
    (∀ e, (runEvents idCol layoutStr outFile recRows filterLines).2 = .error e →
      Ev.closeOut ∉ (runEvents idCol layoutStr outFile recRows filterLines).1) := by
  cases hb : buildRecMap idCol recRows with
  | error e =>
      simp only [runEvents, hb]
      refine ⟨?_, ?_, ?_⟩
      · intro h; simp at h
      · intro _; decide
      · intro e' _; decide
  | ok m =>
      cases hl : parseLayoutOpt layoutStr with
      | error e =>
          simp only [runEvents, hb, hl]
          cases outFile <;>
            exact ⟨fun h => by simp at h, fun _ => by decide, fun e' _ => by decide⟩
      | ok lay =>
          cases hr : runFilter m lay filterLines with
          | error e =>
              simp only [runEvents, hb, hl, hr]
              cases outFile <;>
                exact ⟨fun h => by simp at h, fun _ => by decide, fun e' _ => by decide⟩
          | ok p =>
              simp only [runEvents, hb, hl, hr]
              cases outFile
              · refine ⟨?_, ?_, ?_⟩
                · intro _ hf; cases hf
                · intro _; decide
                · intro e' h; simp at h
              · refine ⟨?_, ?_, ?_⟩
                · intro _ _; exact ⟨by decide, by decide⟩
                · intro hf; cases hf
                · intro e' h; simp at h

/-- Witness for amended C5: a run that completes normally with an output
file configured does open and close the output handle. -/
theorem output_close_behavior_witness :
    Ev.openOut ∈ (runEvents 0 none true [["A"]] ["A"]).1 ∧
    Ev.closeOut ∈ (runEvents 0 none true [["A"]] ["A"]).1 :=
  (output_close_behavior 0 none true [["A"]] ["A"]).1 rfl rfl

/-- Counterexample to C9 as stated: the argument list `-h` has zero
positional arguments, yet the parser does not fail with a "none
specified" usage error — the help action short-circuits and exits with
success. -/
theorem positional_count_counterexample :
    processCommandLine ["-h"] = PhaseOut.help ∧
    PhaseOut.help ≠ PhaseOut.err UsageError.noneSpecified := ⟨rfl, by decide⟩

/-- C9 amended: for every argument list whose option phase parses to a
settings/positionals pair (so no help exit and no earlier option error):
zero positionals fail with the "none specified" usage error, and two or
more positionals fail with the usage error naming exactly the ignored
extras beyond the first. -/
theorem positional_count_errors (argv : List String) (s : Settings) (args : List String)
    (h : parseArgs argv = PhaseOut.parsed s args) :
    (args = [] → processCommandLine argv = .err .noneSpecified) ∧
    (∀ a rest, args = a :: rest → rest ≠ [] →
      processCommandLine argv = .err (.extraIgnored rest)) := by
  constructor
  · intro ha
    subst ha
    unfold processCommandLine
    rw [h]
    rfl
  · intro a rest ha hne
    subst ha
    unfold processCommandLine
    rw [h]
    simp only []
    have h1 : ¬ ((a :: rest).length = 1) := by
      cases rest
      · exact absurd rfl hne
      · simp
    rw [if_neg h1, if_neg (by simp)]
    rfl

/-- Witness for amended C9: the empty argument list yields "none
specified"; `a b` yields the extras error naming `b`. -/
theorem positional_count_errors_witness :
    processCommandLine [] = .err .noneSpecified ∧
    processCommandLine ["a", "b"] = .err (.extraIgnored ["b"]) :=
  ⟨(positional_count_errors [] ⟨none, 0, none, none⟩ [] rfl).1 rfl,
   (positional_count_errors ["a", "b"] ⟨none, 0, none, none⟩ ["a", "b"] rfl).2
     "a" ["b"] rfl (by decide)⟩

end FilterRecords
